import Mathlib

/-!
Shallow embedding of the missionMeteora/twilio Go client library.

Go strings are byte sequences; we model them as `List Nat` (each element a
byte value < 256, though nothing below depends on the bound).  HTTP traffic
is modelled explicitly: the request data each operation builds is returned
as a value, and the network/decoding outcome of each round-trip is passed
in as an input (`Fetch`), since the remote service is outside the program.

The repository has two generations of the client: the current
`src/twilio.go` (namespace `Twilio`) and the older single-file variant
`src/unnamed/part_001` (namespace `Twilio.V1`).
-/

namespace Twilio

/-- Byte list of an ASCII string literal (used only for ASCII text). -/
def ascii (s : String) : List Nat := s.data.map Char.toNat

/-- Model of the result of one HTTP round-trip followed by a JSON decode,
as observed by the calling Go code: `fail` models `http.Post`/`http.Get`
returning a non-nil error (no usable response); `ok derr v` models a
transport success where the following `json.Decoder.Decode` call returned
a non-nil error iff `derr = true`, and left `v` as the contents of the
decode target variable (for an undecodable body `v` is whatever the failed
decode left behind, e.g. the zero value of the target type). -/
inductive Fetch (α : Type) where
  | fail : Fetch α
  | ok : Bool → α → Fetch α
deriving DecidableEq

/-- Errors returned by the library: `transport` stands for the non-nil error
of `http.Post`/`http.Get`; `decode` for the non-nil error of
`json.Decoder.Decode`; `msg s` for `errors.New(s)` built from a provider
message (or the literal "No numbers available" text). -/
inductive GoError where
  | transport : GoError
  | decode : GoError
  | msg : List Nat → GoError
deriving DecidableEq

instance {ε α : Type} [DecidableEq ε] [DecidableEq α] : DecidableEq (Except ε α) := fun x y =>
  match x, y with
  | .ok a, .ok b => decidable_of_iff (a = b) (by simp)
  | .error a, .error b => decidable_of_iff (a = b) (by simp)
  | .ok _, .error _ => isFalse (by simp)
  | .error _, .ok _ => isFalse (by simp)

/-- Model of `fmt.Sprintf` restricted to `%s` verbs on string arguments,
which is the only formatting the source uses.  Bytes 37, 115 are "%s". -/
def sprintf : List Nat → List (List Nat) → List Nat
  | [], _ => []
  | [c], _ => [c]
  | c :: d :: rest, args =>
    if c = 37 ∧ d = 115 then
      match args with
      | a :: args2 => a ++ sprintf rest args2
      | [] => sprintf rest []
    else c :: sprintf (d :: rest) args

/-- Go `net/url.shouldEscape(c, encodeQueryComponent)`: every byte except
ASCII alphanumerics and `-`, `_`, `.`, `~` must be escaped in a query
component. -/
def shouldEscape (c : Nat) : Bool :=
  ¬ ((97 ≤ c ∧ c ≤ 122) ∨ (65 ≤ c ∧ c ≤ 90) ∨ (48 ≤ c ∧ c ≤ 57) ∨
     c = 45 ∨ c = 95 ∨ c = 46 ∨ c = 126)

/-- Upper-case hexadecimal digit byte for a value 0..15. -/
def hexUpper (n : Nat) : Nat := if n < 10 then 48 + n else 55 + n

/-- Go `net/url.QueryEscape`: space (32) becomes `+` (43), every other
byte needing escaping becomes `%XX` with upper-case hex digits. -/
def queryEscape : List Nat → List Nat
  | [] => []
  | c :: rest =>
    (if c = 32 then [43]
     else if shouldEscape c then [37, hexUpper (c / 16), hexUpper (c % 16)]
     else [c]) ++ queryEscape rest

/-- Byte-wise lexicographic order on byte strings, as used by the sort of
map keys inside Go `net/url.Values.Encode`. -/
def lexLe : List Nat → List Nat → Bool
  | [], _ => true
  | _ :: _, [] => false
  | a :: as, b :: bs => if a < b then true else if b < a then false else lexLe as bs

/-- Ordering of key/value pairs by key, for `url.Values.Encode`. -/
def kvLe (x y : List Nat × List Nat) : Prop := lexLe x.1 y.1 = true

instance : DecidableRel kvLe := fun x y => inferInstanceAs (Decidable (_ = _))

/-- Join byte strings with `&` (38) between them, like the buffer loop of
`url.Values.Encode`. -/
def joinAmp : List (List Nat) → List Nat
  | [] => []
  | [x] => x
  | x :: y :: rest => x ++ 38 :: joinAmp (y :: rest)

/-- Go `net/url.Values.Encode` for single-valued keys: sort the entries by
key, query-escape key and value, join as `k=v` pairs with `&`.  Byte 61 is
`=`. -/
def valuesEncode (kvs : List (List Nat × List Nat)) : List Nat :=
  joinAmp ((List.insertionSort kvLe kvs).map fun kv => queryEscape kv.1 ++ 61 :: queryEscape kv.2)

/-! Constants of src/twilio.go. -/

/-- Go const `base`. -/
def base : List Nat := ascii "https://%s:%s@api.twilio.com/2010-04-01/"

/-- Go const `messagesLoc`. -/
def messagesLoc : List Nat := base ++ ascii "Accounts/%s/Messages.json"

/-- Go const `findNumber`. -/
def findNumber : List Nat :=
  base ++ ascii "Accounts/%s/AvailablePhoneNumbers/US/Local.json?InRegion=TX&SmsEnabled=true"

/-- Go const `buyNumber`. -/
def buyNumber : List Nat := base ++ ascii "Accounts/%s/IncomingPhoneNumbers/Local.json"

/-- Go const `getMessages`. -/
def getMessages : List Nat := base ++ ascii "Accounts/%s/Messages.json"

/-- Go const `contentType`. -/
def contentType : List Nat := ascii "application/x-www-form-urlencoded"

/-- Go const `bodyTmpl`. -/
def bodyTmpl : List Nat := ascii "To=%s&From=%s&Body=%s"

/-- Go struct `Client` of src/twilio.go. -/
structure Client where
  key : List Nat
  token : List Nat
  fromPhone : List Nat
  responseTemplate : List Nat
deriving DecidableEq

/-- Go func `New` of src/twilio.go. -/
def New (key token fromPhone responseTemplate : List Nat) : Client :=
  ⟨key, token, fromPhone, responseTemplate⟩

/-- Go struct `SMS`; field names follow the Go field names with the two Go
keywords renamed: `toNumber` is the json field "to", `fromNumber` is "from". -/
structure SMS where
  sid : List Nat
  dateCreated : List Nat
  dateUpdate : List Nat
  dateSent : List Nat
  accountSid : List Nat
  toNumber : List Nat
  fromNumber : List Nat
  body : List Nat
  direction : List Nat
  url : List Nat
  message : List Nat
deriving DecidableEq

/-- Go struct `Thread`. -/
structure Thread where
  messages : List SMS
deriving DecidableEq

/-- Go struct `AvailableNumber`, restricted to the fields the code reads
(the remaining json pass-through fields play no role in any operation). -/
structure AvailableNumber where
  sid : List Nat
  friendlyName : List Nat
  phoneNumber : List Nat
  message : List Nat
deriving DecidableEq

/-- Go struct `Numbers`. -/
structure Numbers where
  numbers : List AvailableNumber
  message : List Nat
deriving DecidableEq

/-- Data of one outgoing HTTP request as built by the client. -/
structure HttpRequest where
  url : List Nat
  contentType : List Nat
  body : List Nat
deriving DecidableEq

/-- Go method `Client.getUrl`: substitutes key, token, key into a URL
template. -/
def getUrl (c : Client) (url : List Nat) : List Nat :=
  sprintf url [c.key, c.token, c.key]

/-- Go method `Client.getBody` of src/twilio.go.  Note the parameter order
(frm, to, msg) versus the slot order of `bodyTmpl`: the first `%s` (the To
slot) receives `to`, the second (From) receives `frm`, the third (Body)
receives `msg`, each passed through `url.QueryEscape` separately. -/
def getBody (c : Client) (frm toN msg : List Nat) : List Nat :=
  sprintf bodyTmpl [queryEscape toN, queryEscape frm, queryEscape msg]

/-- Go method `Client.Send` of src/twilio.go: POSTs the form body built
with the client default `fromPhone`, then decodes the response into `SMS`
and turns a non-empty `message` field into an error. -/
def Send (c : Client) (toN msg : List Nat) (resp : Fetch SMS) : HttpRequest × Option GoError :=
  (⟨getUrl c messagesLoc, contentType, getBody c c.fromPhone toN msg⟩,
   match resp with
   | .fail => some .transport
   | .ok derr r =>
     if derr then some .decode
     else if r.message ≠ [] then some (.msg r.message)
     else none)

/-- Go method `Client.SendWithNumber` of src/twilio.go: identical to `Send`
except the from number is caller supplied. -/
def SendWithNumber (c : Client) (frm toN msg : List Nat) (resp : Fetch SMS) :
    HttpRequest × Option GoError :=
  (⟨getUrl c messagesLoc, contentType, getBody c frm toN msg⟩,
   match resp with
   | .fail => some .transport
   | .ok derr r =>
     if derr then some .decode
     else if r.message ≠ [] then some (.msg r.message)
     else none)

/-! Model of Go `time.Parse(time.RFC1123Z, s)` followed by `.Unix()`, as
used by `SMS.DateSentAsTime`.  The layout is "Mon, 02 Jan 2006 15:04:05
-0700".  The model follows the parsing code of Go time/format.go for that
layout: a case-insensitive three-letter weekday name (never validated
against the date), literal ", ", a two-digit day, a three-letter month
name, a four-digit year, a one-or-two-digit hour < 24, two-digit minute
and second < 60 (an unsolicited fractional second ".ddd" or ",ddd" after
the the seconds is consumed and, having no effect on whole seconds, ignored),
and a numeric zone "+hhmm"/"-hhmm" whose digit pairs are not range
checked.  After the scan the day is validated against the month length
and the remaining input must be empty.  On success the result is the Unix
second count of the civil time minus the zone offset. -/

/-- Byte is an ASCII digit. -/
def isDigitB (c : Nat) : Bool := 48 ≤ c ∧ c ≤ 57

/-- Numeric value of a digit byte. -/
def digitVal (c : Nat) : Nat := c - 48

/-- Go time/format.go `match` on one byte: equal, or equal after setting
bit 32 provided the result is a lower-case letter. -/
def byteMatch (c1 c2 : Nat) : Bool :=
  c1 = c2 ∨ (c1 ||| 32 = c2 ||| 32 ∧ 97 ≤ c1 ||| 32 ∧ c1 ||| 32 ≤ 122)

/-- Go time/format.go `match` over a name, byte for byte. -/
def matchBytes : List Nat → List Nat → Bool
  | [], _ => true
  | _ :: _, [] => false
  | a :: as, b :: bs => byteMatch a b && matchBytes as bs

/-- Go time/format.go `lookup`: first name of the table matching a prefix
of the input; returns its index and the input after the name. -/
def lookupName : List (List Nat) → List Nat → Option (Nat × List Nat)
  | [], _ => none
  | name :: tab, s =>
    if matchBytes name s then some (0, s.drop name.length)
    else (lookupName tab s).map fun ir => (ir.1 + 1, ir.2)

/-- Go `shortDayNames`. -/
def shortDayNames : List (List Nat) :=
  [ascii "Sun", ascii "Mon", ascii "Tue", ascii "Wed", ascii "Thu", ascii "Fri", ascii "Sat"]

/-- Go `shortMonthNames`. -/
def shortMonthNames : List (List Nat) :=
  [ascii "Jan", ascii "Feb", ascii "Mar", ascii "Apr", ascii "May", ascii "Jun",
   ascii "Jul", ascii "Aug", ascii "Sep", ascii "Oct", ascii "Nov", ascii "Dec"]

/-- Consume an exact literal, like the layout literal handling in Parse. -/
def litMatch : List Nat → List Nat → Option (List Nat)
  | [], s => some s
  | p :: ps, c :: cs => if c = p then litMatch ps cs else none
  | _ :: _, [] => none

/-- Go `getnum` with fixed = true: exactly two digits. -/
def getnum2 : List Nat → Option (Nat × List Nat)
  | a :: b :: rest =>
    if isDigitB a ∧ isDigitB b then some (digitVal a * 10 + digitVal b, rest) else none
  | _ => none

/-- Go `getnum` with fixed = false: one digit, or two if the second byte
is also a digit. -/
def getnum12 : List Nat → Option (Nat × List Nat)
  | [] => none
  | [a] => if isDigitB a then some (digitVal a, []) else none
  | a :: b :: rest =>
    if isDigitB a then
      if isDigitB b then some (digitVal a * 10 + digitVal b, rest)
      else some (digitVal a, b :: rest)
    else none

/-- Go stdLongYear handling: four bytes, all digits. -/
def getYear4 : List Nat → Option (Nat × List Nat)
  | a :: b :: c :: d :: rest =>
    if isDigitB a ∧ isDigitB b ∧ isDigitB c ∧ isDigitB d then
      some (digitVal a * 1000 + digitVal b * 100 + digitVal c * 10 + digitVal d, rest)
    else none
  | _ => none

/-- Go Parse special case after the seconds: an input fractional second
"." or "," followed by at least one digit is consumed even though the
layout has none; it only sets nanoseconds, which `Unix()` discards. -/
def dropFrac : List Nat → List Nat
  | c :: d :: rest =>
    if (c = 44 ∨ c = 46) ∧ isDigitB d then (d :: rest).dropWhile isDigitB
    else c :: d :: rest
  | s => s

/-- Go stdNumTZ handling: a sign byte, then two two-digit groups (hours
and minutes of the offset, not range checked); offset in seconds. -/
def parseTZ : List Nat → Option (Int × List Nat)
  | sign :: h1 :: h2 :: m1 :: m2 :: rest =>
    if (sign = 43 ∨ sign = 45) ∧ isDigitB h1 ∧ isDigitB h2 ∧ isDigitB m1 ∧ isDigitB m2 then
      let off : Int :=
        (((digitVal h1 * 10 + digitVal h2) * 60 + (digitVal m1 * 10 + digitVal m2)) * 60 : Nat)
      some (if sign = 45 then -off else off, rest)
    else none
  | _ => none

/-- Go `isLeap`. -/
def isLeap (y : Nat) : Bool := y % 4 = 0 ∧ (y % 100 ≠ 0 ∨ y % 400 = 0)

/-- Go `daysIn(m, year)`: length of month m (1..12) in the given year. -/
def daysIn (m y : Nat) : Nat :=
  if m = 2 then (if isLeap y then 29 else 28)
  else [31, 28, 31, 30, 31, 30, 31, 31, 30, 31, 30, 31].getD (m - 1) 0

/-- Days from the Unix epoch 1970-01-01 to the civil date y-m-d (proleptic
Gregorian, matching the absolute-date arithmetic of Go time.Date). -/
def daysFromCivil (y m d : Int) : Int :=
  let ys := if m ≤ 2 then y - 1 else y
  let era := (if 0 ≤ ys then ys else ys - 399) / 400
  let yoe := ys - era * 400
  let doy := (153 * (if 2 < m then m - 3 else m + 9) + 2) / 5 + d - 1
  let doe := yoe * 365 + yoe / 4 - yoe / 100 + doy
  era * 146097 + doe - 719468

/-- Unix seconds of Go's zero Time (January 1, year 1, 00:00:00 UTC). -/
def zeroTimeUnix : Int := -62135596800

/-- Scan of the date half of the layout: weekday name, ", ", two-digit
day, " ", month name, " ", four-digit year, " ".  Yields day, month index
(0..11) and year with the unconsumed input. -/
def parseDMY (s : List Nat) : Option (Nat × Nat × Nat × List Nat) := do
  let (_, s) ← lookupName shortDayNames s
  let s ← litMatch [44, 32] s
  let (day, s) ← getnum2 s
  let s ← litMatch [32] s
  let (monthIdx, s) ← lookupName shortMonthNames s
  let s ← litMatch [32] s
  let (year, s) ← getYear4 s
  let s ← litMatch [32] s
  pure (day, monthIdx, year, s)

/-- Scan of the clock part "15:04:05" with the range checks Parse applies
to hour, minute and second, plus the unsolicited fractional second. -/
def parseHMS (s : List Nat) : Option (Nat × Nat × Nat × List Nat) := do
  let (hour, s) ← getnum12 s
  guard (hour < 24)
  let s ← litMatch [58] s
  let (minute, s) ← getnum2 s
  guard (minute < 60)
  let s ← litMatch [58] s
  let (sec, s) ← getnum2 s
  guard (sec < 60)
  pure (hour, minute, sec, dropFrac s)

/-- Model of `time.Parse(time.RFC1123Z, s)` returning the `.Unix()` value
of the parsed Time on success. -/
def parseRFC1123Z (s : List Nat) : Option Int := do
  let (day, monthIdx, year, s) ← parseDMY s
  let (hour, minute, sec, s) ← parseHMS s
  let s ← litMatch [32] s
  let (off, s) ← parseTZ s
  guard (s = [])
  guard (1 ≤ day ∧ day ≤ daysIn (monthIdx + 1) year)
  pure (daysFromCivil (year : Int) ((monthIdx : Int) + 1) (day : Int) * 86400
        + ((hour * 3600 + minute * 60 + sec : Nat) : Int) - off)

/-- Go method `SMS.DateSentAsTime` composed with `.Unix()`: the parse
error is discarded, so an unparseable date yields the zero Time, whose
Unix value is `zeroTimeUnix`. -/
def DateSentAsTime (sms : SMS) : Int :=
  match parseRFC1123Z sms.dateSent with
  | some u => u
  | none => zeroTimeUnix

/-- Ordering used by the `sort.Slice` call inside `GetThread`: the Go less
function is `DateSentAsTime(i).Unix() > DateSentAsTime(j).Unix()`, so a
message sorts before another iff its Unix sent-time is at least the
other one (descending order, ties unordered). -/
def msgBefore (a b : SMS) : Prop := DateSentAsTime b ≤ DateSentAsTime a

instance : DecidableRel msgBefore := fun a b => inferInstanceAs (Decidable (_ ≤ _))

instance : IsTotal SMS msgBefore := ⟨fun a b => le_total (DateSentAsTime b) (DateSentAsTime a)⟩

instance : IsTrans SMS msgBefore := ⟨fun _ _ _ h1 h2 => le_trans h2 h1⟩

/-- Model of the `sort.Slice(messages, ...)` call of `GetThread`.  Go uses
an unstable comparison sort whose result is fully determined by the less
function whenever the sort keys are pairwise distinct; for slices shorter
than twelve elements Go performs a plain insertion sort, which is what is
used here. -/
def sortMessages (l : List SMS) : List SMS := List.insertionSort msgBefore l

/-- Query string built by `Client.getThread` of src/twilio.go: a
`url.Values` map receives key "To" when `toN` is non-empty and key "From"
when `frm` is non-empty, and is then rendered by `Values.Encode`. -/
def getThreadQuery (frm toN : List Nat) : List Nat :=
  valuesEncode ((if toN ≠ [] then [(ascii "To", toN)] else []) ++
                (if frm ≠ [] then [(ascii "From", frm)] else []))

/-- Go method `Client.getThread`: the GET request URL (base URL, `?` (63),
then the encoded query) together with the decoded response.  Transport and
decode errors are both checked and propagated. -/
def getThread (c : Client) (frm toN : List Nat) (resp : Fetch Thread) :
    List Nat × Except GoError Thread :=
  (getUrl c getMessages ++ 63 :: getThreadQuery frm toN,
   match resp with
   | .fail => .error .transport
   | .ok derr r => if derr then .error .decode else .ok r)

/-- Go method `Client.GetThread`: fetch host→client messages, then
client→host messages, concatenate in that order and sort by sent time
descending.  `fwdResp` is the outcome of the first sub-fetch
(From=host, To=client), `revResp` of the second. -/
def GetThread (c : Client) (host client : List Nat) (fwdResp revResp : Fetch Thread) :
    Except GoError (List SMS) :=
  match (getThread c host client fwdResp).2 with
  | .error e => .error e
  | .ok f =>
    match (getThread c client host revResp).2 with
    | .error e => .error e
    | .ok r => .ok (sortMessages (f.messages ++ r.messages))

/-- The two requests `AddNumber` can issue, in order of appearance. -/
inductive Req where
  | search : Req
  | buy : Req
deriving DecidableEq

/-- Go method `Client.AddNumber`: GET the available-number search, and on
success POST the purchase of the first candidate.  The returned list
records which requests were actually issued, in order.  Note two source
quirks kept by the model: only the first candidate is ever inspected, and
the purchase response decode error is discarded (`json.NewDecoder(...).
Decode(&number)` without an error check), so `num` is used whatever the
decode outcome was. -/
def AddNumber (searchResp : Fetch Numbers) (buyResp : Fetch AvailableNumber) :
    Except GoError (List Nat) × List Req :=
  match searchResp with
  | .fail => (.error .transport, [Req.search])
  | .ok derr r =>
    if derr then (.error .decode, [Req.search])
    else if r.message ≠ [] then (.error (.msg r.message), [Req.search])
    else
      let phoneNumber :=
        match r.numbers with
        | [] => []
        | n :: _ => if n.phoneNumber ≠ [] then n.phoneNumber else []
      if phoneNumber = [] then (.error (.msg (ascii "No numbers available")), [Req.search])
      else
        match buyResp with
        | .fail => (.error .transport, [Req.search, Req.buy])
        | .ok _ num =>
          if num.message ≠ [] then (.error (.msg num.message), [Req.search, Req.buy])
          else (.ok num.phoneNumber, [Req.search, Req.buy])

namespace V1

/-- Go const `twilioLoc` of src/unnamed/part_001. -/
def twilioLoc : List Nat :=
  ascii "https://%s:%s@api.twilio.com/2010-04-01/Accounts/%s/Messages.json"

/-- Go struct `Client` of src/unnamed/part_001. -/
structure Client where
  key : List Nat
  token : List Nat
  fromPhone : List Nat
deriving DecidableEq

/-- Go func `New` of src/unnamed/part_001. -/
def New (key token fromPhone : List Nat) : Client := ⟨key, token, fromPhone⟩

/-- Go method `Client.getUrl` of src/unnamed/part_001. -/
def getUrl (c : Client) : List Nat := sprintf twilioLoc [c.key, c.token, c.key]

/-- Go method `Client.getBody` of src/unnamed/part_001: the To slot gets
`to`, the From slot gets the client default `fromPhone`, the Body slot gets
`msg`. -/
def getBody (c : Client) (toN msg : List Nat) : List Nat :=
  sprintf bodyTmpl [queryEscape toN, queryEscape c.fromPhone, queryEscape msg]

/-- Go method `Client.Send` of src/unnamed/part_001.  The decode target is
`map[string]interface{}`; the only part of it the code looks at is
`r["message"].(string)`, so the decoded value is modelled as
`Option (List Nat)`: `some m` iff the decoded map holds key "message" with
a string value `m`.  Note the source discards the `Decode` error and
returns `errors.New(msg)` whenever the key is present as a string, even
for the empty string. -/
def Send (c : Client) (toN msg : List Nat) (resp : Fetch (Option (List Nat))) :
    HttpRequest × Option GoError :=
  (⟨getUrl c, contentType, getBody c toN msg⟩,
   match resp with
   | .fail => some .transport
   | .ok _ mf =>
     match mf with
     | some m => some (.msg m)
     | none => none)

end V1

/-- Convenience builder for concrete test messages: an `SMS` with the
given sid and date_sent field and every other field empty. -/
def mkSMS (sid dateSent : List Nat) : SMS :=
  ⟨sid, [], [], dateSent, [], [], [], [], [], [], []⟩

/-- Equation giving the body template instantiation in readable form. -/
theorem sprintf_bodyTmpl (a b c : List Nat) :
    sprintf bodyTmpl [a, b, c] =
      ascii "To=" ++ a ++ ascii "&From=" ++ b ++ ascii "&Body=" ++ c := by
  show sprintf [84, 111, 61, 37, 115, 38, 70, 114, 111, 109, 61, 37, 115, 38, 66, 111, 100, 121, 61, 37, 115]
      [a, b, c] =
    [84, 111, 61] ++ a ++ [38, 70, 114, 111, 109, 61] ++ b ++ [38, 66, 111, 100, 121, 61] ++ c
  simp [sprintf]

/-- The less function of the `GetThread` sort determines the output
sequence uniquely whenever the sort keys are pairwise distinct: two
permutations of the same messages, both sorted, coincide. -/
theorem sorted_perm_eq_of_distinct :
    ∀ l1 l2 : List SMS, l1.Perm l2 → List.Sorted msgBefore l1 → List.Sorted msgBefore l2 →
      l1.Pairwise (fun a b => DateSentAsTime a ≠ DateSentAsTime b) → l1 = l2 := by
  intro l1
  induction l1 with
  | nil =>
    intro l2 hp _ _ _
    exact hp.nil_eq
  | cons a t1 ih =>
    intro l2 hp hs1 hs2 hd
    cases l2 with
    | nil => exact absurd hp.eq_nil (by simp)
    | cons b t2 =>
      by_cases hab : a = b
      · subst hab
        have ht := hp.cons_inv
        have := ih t2 ht hs1.of_cons hs2.of_cons (List.pairwise_cons.mp hd).2
        rw [this]
      · exfalso
        have hbmem : b ∈ t1 := by
          have hmem : b ∈ a :: t1 := hp.symm.subset (List.mem_cons_self b t2)
          rcases List.mem_cons.mp hmem with h | h
          · exact absurd h.symm hab
          · exact h
        have hamem : a ∈ t2 := by
          have hmem : a ∈ b :: t2 := hp.subset (List.mem_cons_self a t1)
          rcases List.mem_cons.mp hmem with h | h
          · exact absurd h hab
          · exact h
        have r1 : msgBefore a b := List.rel_of_sorted_cons hs1 b hbmem
        have r2 : msgBefore b a := List.rel_of_sorted_cons hs2 a hamem
        have hne : DateSentAsTime a ≠ DateSentAsTime b := (List.pairwise_cons.mp hd).1 b hbmem
        exact hne (le_antisymm r2 r1)

/-- C1: when both sub-queries of GetThread(A, B) decode successfully and
together return exactly three messages with pairwise-distinct sent times
T1 < T2 < T3, the returned sequence is [T3, T2, T1], regardless of which
sub-query each message came from. -/
theorem getThread_three_newest_first (c : Client) (host client : List Nat)
    (m1 m2 m3 : SMS) (fwd rev : Thread)
    (h12 : DateSentAsTime m1 < DateSentAsTime m2)
    (h23 : DateSentAsTime m2 < DateSentAsTime m3)
    (hperm : (fwd.messages ++ rev.messages).Perm [m1, m2, m3]) :
    GetThread c host client (.ok false fwd) (.ok false rev) = .ok [m3, m2, m1] := by
  have hrev : ([m1, m2, m3] : List SMS).Perm [m3, m2, m1] := by
    simpa using (List.reverse_perm [m1, m2, m3]).symm
  have hpall : (sortMessages (fwd.messages ++ rev.messages)).Perm [m3, m2, m1] :=
    ((List.perm_insertionSort msgBefore _).trans hperm).trans hrev
  have hsorted : List.Sorted msgBefore (sortMessages (fwd.messages ++ rev.messages)) :=
    List.sorted_insertionSort msgBefore _
  have hsorted2 : List.Sorted msgBefore [m3, m2, m1] := by
    refine List.pairwise_cons.mpr ⟨fun b hb => ?_, List.pairwise_cons.mpr
      ⟨fun b hb => ?_, List.pairwise_singleton _ _⟩⟩
    · rcases List.mem_cons.mp hb with rfl | hb
      · exact le_of_lt h23
      · rcases List.mem_singleton.mp hb with rfl
        exact le_of_lt (lt_trans h12 h23)
    · rcases List.mem_singleton.mp hb with rfl
      exact le_of_lt h12
  have hdist3 : ([m3, m2, m1] : List SMS).Pairwise
      (fun a b => DateSentAsTime a ≠ DateSentAsTime b) := by
    refine List.pairwise_cons.mpr ⟨fun b hb => ?_, List.pairwise_cons.mpr
      ⟨fun b hb => ?_, List.pairwise_singleton _ _⟩⟩
    · rcases List.mem_cons.mp hb with rfl | hb
      · exact ne_of_gt h23
      · rcases List.mem_singleton.mp hb with rfl
        exact ne_of_gt (lt_trans h12 h23)
    · rcases List.mem_singleton.mp hb with rfl
      exact ne_of_gt h12
  have hdist : (sortMessages (fwd.messages ++ rev.messages)).Pairwise
      (fun a b => DateSentAsTime a ≠ DateSentAsTime b) :=
    (List.Perm.pairwise_iff (fun h => Ne.symm h) hpall).mpr hdist3
  have hkey := sorted_perm_eq_of_distinct _ _ hpall hsorted hsorted2 hdist
  show Except.ok (sortMessages (fwd.messages ++ rev.messages)) = Except.ok [m3, m2, m1]
  rw [hkey]

/-- Witness for C1: three concrete messages sent on consecutive days,
split between the two sub-queries, come back newest first. -/
theorem getThread_three_newest_first_witness :
    GetThread (New (ascii "k") (ascii "t") (ascii "f") (ascii "r")) (ascii "h") (ascii "c")
      (.ok false ⟨[mkSMS (ascii "b") (ascii "Mon, 02 Jan 2006 15:04:05 +0000")]⟩)
      (.ok false ⟨[mkSMS (ascii "c") (ascii "Tue, 03 Jan 2006 15:04:05 +0000"),
                   mkSMS (ascii "a") (ascii "Sun, 01 Jan 2006 15:04:05 +0000")]⟩) =
      .ok [mkSMS (ascii "c") (ascii "Tue, 03 Jan 2006 15:04:05 +0000"),
           mkSMS (ascii "b") (ascii "Mon, 02 Jan 2006 15:04:05 +0000"),
           mkSMS (ascii "a") (ascii "Sun, 01 Jan 2006 15:04:05 +0000")] :=
  getThread_three_newest_first _ _ _
    (mkSMS (ascii "a") (ascii "Sun, 01 Jan 2006 15:04:05 +0000"))
    (mkSMS (ascii "b") (ascii "Mon, 02 Jan 2006 15:04:05 +0000"))
    (mkSMS (ascii "c") (ascii "Tue, 03 Jan 2006 15:04:05 +0000"))
    _ _ (by decide) (by decide) (by decide)

/-- C8 (amended): the merge-and-sort step of GetThread is independent of
fetch order up to permutation: sorting F ++ R and sorting R ++ F always
return the same multiset of messages, and the same sequence whenever the
sent-time keys are pairwise distinct.  With tied keys the sequences can
differ (see the counterexample), since the sort is not order-independent
on equal keys. -/
theorem sortMessages_fetch_order (F R : List SMS) :
    (sortMessages (F ++ R)).Perm (sortMessages (R ++ F))
    ∧ ((F ++ R).Pairwise (fun a b => DateSentAsTime a ≠ DateSentAsTime b) →
        sortMessages (F ++ R) = sortMessages (R ++ F)) := by
  have hperm : (sortMessages (F ++ R)).Perm (sortMessages (R ++ F)) :=
    ((List.perm_insertionSort msgBefore _).trans List.perm_append_comm).trans
      (List.perm_insertionSort msgBefore _).symm
  refine ⟨hperm, fun hd => ?_⟩
  refine sorted_perm_eq_of_distinct _ _ hperm (List.sorted_insertionSort msgBefore _)
    (List.sorted_insertionSort msgBefore _) ?_
  exact (List.Perm.pairwise_iff (fun h => Ne.symm h)
    (List.perm_insertionSort msgBefore (F ++ R))).mpr hd

/-- Witness for C8: with two distinct sent times the two fetch orders
produce the same sorted sequence. -/
theorem sortMessages_fetch_order_witness :
    sortMessages ([mkSMS (ascii "a") (ascii "Sun, 01 Jan 2006 15:04:05 +0000")] ++
        [mkSMS (ascii "b") (ascii "Mon, 02 Jan 2006 15:04:05 +0000")]) =
      sortMessages ([mkSMS (ascii "b") (ascii "Mon, 02 Jan 2006 15:04:05 +0000")] ++
        [mkSMS (ascii "a") (ascii "Sun, 01 Jan 2006 15:04:05 +0000")]) :=
  (sortMessages_fetch_order _ _).2 (by decide)

/-- C8 counterexample: two distinct messages with identical sent times;
swapping which sub-fetch supplied which message changes the output
sequence of GetThread. -/
theorem getThread_fetch_order_cex :
    GetThread (New (ascii "k") (ascii "t") (ascii "f") (ascii "r")) (ascii "h") (ascii "c")
      (.ok false ⟨[mkSMS (ascii "a") (ascii "Mon, 02 Jan 2006 15:04:05 +0000")]⟩)
      (.ok false ⟨[mkSMS (ascii "b") (ascii "Mon, 02 Jan 2006 15:04:05 +0000")]⟩) ≠
    GetThread (New (ascii "k") (ascii "t") (ascii "f") (ascii "r")) (ascii "h") (ascii "c")
      (.ok false ⟨[mkSMS (ascii "b") (ascii "Mon, 02 Jan 2006 15:04:05 +0000")]⟩)
      (.ok false ⟨[mkSMS (ascii "a") (ascii "Mon, 02 Jan 2006 15:04:05 +0000")]⟩) := by decide

/-- C4 (amended): when both sub-queries decode, GetThread always succeeds
whatever the date_sent strings contain; a message whose date_sent fails
to parse gets the zero time instant as its sort key, so in the returned
(descending) sequence every message preceding it that parses at all
parses to a time no later than... more precisely: whenever an
unparseable-dated message comes before some message m in the output, m
either fails to parse too or parses to a time at or before the zero
instant.  Equivalently, every message parsing to a time after the zero
instant comes earlier in the output than every unparseable-dated
message. -/
theorem getThread_unparseable_zero_key (c : Client) (host client : List Nat)
    (fwd rev : Thread) :
    GetThread c host client (.ok false fwd) (.ok false rev) =
      .ok (sortMessages (fwd.messages ++ rev.messages))
    ∧ (sortMessages (fwd.messages ++ rev.messages)).Pairwise
        (fun a b => parseRFC1123Z a.dateSent = none →
          ∀ u, parseRFC1123Z b.dateSent = some u → u ≤ zeroTimeUnix)
    ∧ (∀ m : SMS, parseRFC1123Z m.dateSent = none → DateSentAsTime m = zeroTimeUnix) := by
  refine ⟨rfl, ?_, ?_⟩
  · refine List.Pairwise.imp ?_ (List.sorted_insertionSort msgBefore (fwd.messages ++ rev.messages))
    intro a b h ha u hu
    have h2 : DateSentAsTime b ≤ DateSentAsTime a := h
    have hka : DateSentAsTime a = zeroTimeUnix := by simp [DateSentAsTime, ha]
    have hkb : DateSentAsTime b = u := by simp [DateSentAsTime, hu]
    rw [hka, hkb] at h2
    exact h2
  · intro m hm
    simp [DateSentAsTime, hm]

/-- Witness for C4: one unparseable message and one ordinary 2006 message;
the call succeeds, the ordinary message comes first, and the unparseable
one is keyed by the zero instant. -/
theorem getThread_unparseable_zero_key_witness :
    GetThread (New (ascii "k") (ascii "t") (ascii "f") (ascii "r")) (ascii "h") (ascii "c")
      (.ok false ⟨[mkSMS (ascii "x") (ascii "not a date")]⟩)
      (.ok false ⟨[mkSMS (ascii "y") (ascii "Mon, 02 Jan 2006 15:04:05 +0000")]⟩) =
      .ok [mkSMS (ascii "y") (ascii "Mon, 02 Jan 2006 15:04:05 +0000"),
           mkSMS (ascii "x") (ascii "not a date")]
    ∧ DateSentAsTime (mkSMS (ascii "x") (ascii "not a date")) = zeroTimeUnix :=
  ⟨((getThread_unparseable_zero_key (New (ascii "k") (ascii "t") (ascii "f") (ascii "r"))
      (ascii "h") (ascii "c") ⟨[mkSMS (ascii "x") (ascii "not a date")]⟩
      ⟨[mkSMS (ascii "y") (ascii "Mon, 02 Jan 2006 15:04:05 +0000")]⟩).1).trans (by decide),
   (getThread_unparseable_zero_key (New (ascii "k") (ascii "t") (ascii "f") (ascii "r"))
      (ascii "h") (ascii "c") ⟨[mkSMS (ascii "x") (ascii "not a date")]⟩
      ⟨[mkSMS (ascii "y") (ascii "Mon, 02 Jan 2006 15:04:05 +0000")]⟩).2.2 _ (by decide)⟩

/-- C4 counterexample: the Go layout scan accepts
"Mon, 01 Jan 0001 00:00:00 +0000", which parses to exactly the zero time
instant, so an unparseable message ties with it instead of sorting
strictly earlier; here the unparseable message even comes first in the
output. -/
theorem getThread_unparseable_not_earliest_cex :
    GetThread (New (ascii "k") (ascii "t") (ascii "f") (ascii "r")) (ascii "h") (ascii "c")
      (.ok false ⟨[mkSMS (ascii "bad") (ascii "not a date")]⟩)
      (.ok false ⟨[mkSMS (ascii "old") (ascii "Mon, 01 Jan 0001 00:00:00 +0000")]⟩) =
      .ok [mkSMS (ascii "bad") (ascii "not a date"),
           mkSMS (ascii "old") (ascii "Mon, 01 Jan 0001 00:00:00 +0000")]
    ∧ parseRFC1123Z (ascii "not a date") = none
    ∧ parseRFC1123Z (ascii "Mon, 01 Jan 0001 00:00:00 +0000") = some zeroTimeUnix := by decide

/-- C3: both Send variants (and the older client) build the POST body as
To=, From=, Body= in that field order, each of the three values
percent-encoded independently; Send fills the From slot with the client
default number, SendWithNumber with the caller-supplied one. -/
theorem send_body_fields (c : Client) (frm toN msg : List Nat) (resp : Fetch SMS)
    (c1 : V1.Client) :
    (Send c toN msg resp).1.body =
      ascii "To=" ++ queryEscape toN ++ ascii "&From=" ++ queryEscape c.fromPhone ++
        ascii "&Body=" ++ queryEscape msg
    ∧ (SendWithNumber c frm toN msg resp).1.body =
      ascii "To=" ++ queryEscape toN ++ ascii "&From=" ++ queryEscape frm ++
        ascii "&Body=" ++ queryEscape msg
    ∧ V1.getBody c1 toN msg =
      ascii "To=" ++ queryEscape toN ++ ascii "&From=" ++ queryEscape c1.fromPhone ++
        ascii "&Body=" ++ queryEscape msg :=
  ⟨sprintf_bodyTmpl (queryEscape toN) (queryEscape c.fromPhone) (queryEscape msg),
   sprintf_bodyTmpl (queryEscape toN) (queryEscape frm) (queryEscape msg),
   sprintf_bodyTmpl (queryEscape toN) (queryEscape c1.fromPhone) (queryEscape msg)⟩

/-- C2 (amended): after a successful transport and decode, the twilio.go
Send and SendWithNumber return an error exactly when the decoded message
field is non-empty, and then its text is exactly that field; the
part_001 Send instead returns an error exactly when the "message" key is
present as a string, with that text — including for the empty string. -/
theorem send_provider_message_error (c : Client) (frm toN msg : List Nat) (r : SMS)
    (c1 : V1.Client) (mf : Option (List Nat)) :
    ((Send c toN msg (.ok false r)).2 = none ↔ r.message = [])
    ∧ (r.message ≠ [] → (Send c toN msg (.ok false r)).2 = some (.msg r.message))
    ∧ ((SendWithNumber c frm toN msg (.ok false r)).2 = none ↔ r.message = [])
    ∧ (r.message ≠ [] →
        (SendWithNumber c frm toN msg (.ok false r)).2 = some (.msg r.message))
    ∧ ((V1.Send c1 toN msg (.ok false mf)).2 = none ↔ mf = none)
    ∧ (∀ m, mf = some m → (V1.Send c1 toN msg (.ok false mf)).2 = some (.msg m)) := by
  by_cases hr : r.message = [] <;> cases mf <;>
    simp [Send, SendWithNumber, V1.Send, hr]

/-- Witness for C2: a message-less response yields no error and an
"invalid number" response yields exactly that error text. -/
theorem send_provider_message_error_witness :
    (Send (New (ascii "k") (ascii "t") (ascii "f") (ascii "r")) (ascii "c") (ascii "hi")
        (.ok false (mkSMS (ascii "s") []))).2 = none
    ∧ (Send (New (ascii "k") (ascii "t") (ascii "f") (ascii "r")) (ascii "c") (ascii "hi")
        (.ok false ⟨ascii "s", [], [], [], [], [], [], [], [], [], ascii "invalid number"⟩)).2 =
      some (.msg (ascii "invalid number")) :=
  ⟨(send_provider_message_error (New (ascii "k") (ascii "t") (ascii "f") (ascii "r"))
      [] (ascii "c") (ascii "hi") (mkSMS (ascii "s") [])
      (V1.New (ascii "k") (ascii "t") (ascii "f")) none).1.mpr rfl,
   (send_provider_message_error (New (ascii "k") (ascii "t") (ascii "f") (ascii "r"))
      [] (ascii "c") (ascii "hi")
      ⟨ascii "s", [], [], [], [], [], [], [], [], [], ascii "invalid number"⟩
      (V1.New (ascii "k") (ascii "t") (ascii "f")) none).2.1 (by decide)⟩

/-- C2 counterexample: in the part_001 Send a decoded response whose
"message" key holds the empty string still produces a (non-nil) error,
where the claim demands no error for an empty message field. -/
theorem sendV1_empty_message_cex :
    (V1.Send (V1.New (ascii "k") (ascii "t") (ascii "f")) (ascii "c") (ascii "hi")
        (.ok false (some []))).2 = some (.msg [])
    ∧ (V1.Send (V1.New (ascii "k") (ascii "t") (ascii "f")) (ascii "c") (ascii "hi")
        (.ok false (some []))).2 ≠ none := by decide

/-- C5: when the search round-trip succeeds (transport and decode ok, no
provider message) but returns zero candidates, AddNumber returns the
error "No numbers available" and never issues the purchase POST, whatever
the purchase outcome would have been. -/
theorem addNumber_no_candidates (r : Numbers) (buyResp : Fetch AvailableNumber)
    (hmsg : r.message = []) (hnum : r.numbers = []) :
    AddNumber (.ok false r) buyResp =
      (.error (.msg (ascii "No numbers available")), [Req.search]) := by
  simp [AddNumber, hmsg, hnum]

/-- Witness for C5: an empty candidate list at concrete inputs. -/
theorem addNumber_no_candidates_witness :
    AddNumber (.ok false ⟨[], []⟩) (.ok false ⟨[], [], [], []⟩) =
      (.error (.msg (ascii "No numbers available")), [Req.search]) :=
  addNumber_no_candidates ⟨[], []⟩ (.ok false ⟨[], [], [], []⟩) rfl rfl

/-- C6: when the search succeeds and yields a usable first candidate but
the decoded purchase response carries a non-empty message field,
AddNumber returns an error with exactly that text, and its request trace
contains the search exactly once (followed by the one purchase). -/
theorem addNumber_purchase_error (r : Numbers) (n : AvailableNumber)
    (rest : List AvailableNumber) (num : AvailableNumber)
    (hmsg : r.message = []) (hns : r.numbers = n :: rest) (hp : n.phoneNumber ≠ [])
    (hbuy : num.message ≠ []) :
    AddNumber (.ok false r) (.ok false num) =
      (.error (.msg num.message), [Req.search, Req.buy]) := by
  simp [AddNumber, hmsg, hns, hp, hbuy]

/-- Witness for C6: a purchase rejection at concrete inputs. -/
theorem addNumber_purchase_error_witness :
    AddNumber (.ok false ⟨[⟨[], [], ascii "+15550001111", []⟩], []⟩)
        (.ok false ⟨[], [], [], ascii "could not buy"⟩) =
      (.error (.msg (ascii "could not buy")), [Req.search, Req.buy]) :=
  addNumber_purchase_error ⟨[⟨[], [], ascii "+15550001111", []⟩], []⟩
    ⟨[], [], ascii "+15550001111", []⟩ [] ⟨[], [], [], ascii "could not buy"⟩
    rfl rfl (by decide) (by decide)

/-- C10: AddNumber inspects only the first search candidate: if its
phone_number is empty the call fails with "No numbers available" and no
purchase request is issued, regardless of any later candidates. -/
theorem addNumber_first_candidate_only (r : Numbers) (n : AvailableNumber)
    (rest : List AvailableNumber) (buyResp : Fetch AvailableNumber)
    (hmsg : r.message = []) (hns : r.numbers = n :: rest) (hp : n.phoneNumber = []) :
    AddNumber (.ok false r) buyResp =
      (.error (.msg (ascii "No numbers available")), [Req.search]) := by
  simp [AddNumber, hmsg, hns, hp]

/-- Witness for C10: the first candidate has an empty phone number while
the second has a usable one; the call still fails without purchasing. -/
theorem addNumber_first_candidate_only_witness :
    AddNumber (.ok false ⟨[⟨[], [], [], []⟩, ⟨[], [], ascii "+15550001111", []⟩], []⟩)
        (.ok false ⟨[], [], ascii "+15550001111", []⟩) =
      (.error (.msg (ascii "No numbers available")), [Req.search]) :=
  addNumber_first_candidate_only ⟨[⟨[], [], [], []⟩, ⟨[], [], ascii "+15550001111", []⟩], []⟩
    ⟨[], [], [], []⟩ [⟨[], [], ascii "+15550001111", []⟩]
    (.ok false ⟨[], [], ascii "+15550001111", []⟩) rfl rfl rfl

/-- C7 (amended): an undecodable response body yields a decode error from
the twilio.go Send and SendWithNumber, from the thread sub-fetch and from
the search step of AddNumber; but the part_001 Send and the purchase step
of AddNumber discard the decode error and continue with whatever value
the failed decode left behind (the part_001 Send then errors only if a
message string was decoded; the purchase step returns the possibly
zero-value phone number as success when no message was decoded). -/
theorem decode_error_propagation (c : Client) (frm toN msg : List Nat) (r r2 : SMS)
    (t : Thread) (n : Numbers) (buyResp : Fetch AvailableNumber) (c1 : V1.Client)
    (mf : Option (List Nat)) (num : AvailableNumber) (rs : Numbers)
    (n0 : AvailableNumber) (rest : List AvailableNumber)
    (hmsg : rs.message = []) (hns : rs.numbers = n0 :: rest) (hp : n0.phoneNumber ≠ []) :
    (Send c toN msg (.ok true r)).2 = some .decode
    ∧ (SendWithNumber c frm toN msg (.ok true r2)).2 = some .decode
    ∧ (getThread c frm toN (.ok true t)).2 = .error .decode
    ∧ AddNumber (.ok true n) buyResp = (.error .decode, [Req.search])
    ∧ (V1.Send c1 toN msg (.ok true mf)).2 =
        (match mf with | some m => some (.msg m) | none => none)
    ∧ AddNumber (.ok false rs) (.ok true num) =
        (if num.message ≠ [] then .error (.msg num.message) else .ok num.phoneNumber,
         [Req.search, Req.buy]) := by
  refine ⟨rfl, rfl, rfl, by simp [AddNumber], rfl, ?_⟩
  simp [AddNumber, hmsg, hns, hp]
  split <;> rfl

/-- Witness for C7: a decode failure in Send is surfaced, while a decode
failure in the purchase step of AddNumber at concrete inputs is not — the
call returns the empty phone number as success. -/
theorem decode_error_propagation_witness :
    (Send (New (ascii "k") (ascii "t") (ascii "f") (ascii "r")) (ascii "c") (ascii "hi")
        (.ok true (mkSMS [] []))).2 = some GoError.decode
    ∧ AddNumber (.ok false ⟨[⟨[], [], ascii "+15550001111", []⟩], []⟩)
        (.ok true ⟨[], [], [], []⟩) = (.ok [], [Req.search, Req.buy]) :=
  ⟨(decode_error_propagation (New (ascii "k") (ascii "t") (ascii "f") (ascii "r"))
      [] (ascii "c") (ascii "hi") (mkSMS [] []) (mkSMS [] []) ⟨[]⟩ ⟨[], []⟩
      (.ok false ⟨[], [], [], []⟩) (V1.New (ascii "k") (ascii "t") (ascii "f")) none
      ⟨[], [], [], []⟩ ⟨[⟨[], [], ascii "+15550001111", []⟩], []⟩
      ⟨[], [], ascii "+15550001111", []⟩ [] rfl rfl (by decide)).1,
   ((decode_error_propagation (New (ascii "k") (ascii "t") (ascii "f") (ascii "r"))
      [] (ascii "c") (ascii "hi") (mkSMS [] []) (mkSMS [] []) ⟨[]⟩ ⟨[], []⟩
      (.ok false ⟨[], [], [], []⟩) (V1.New (ascii "k") (ascii "t") (ascii "f")) none
      ⟨[], [], [], []⟩ ⟨[⟨[], [], ascii "+15550001111", []⟩], []⟩
      ⟨[], [], ascii "+15550001111", []⟩ [] rfl rfl (by decide)).2.2.2.2.2).trans
     (by decide)⟩

/-- C7 counterexample: in the part_001 Send an undecodable body (decode
error flagged, nothing decoded) produces no error at all instead of a
decoding error, and the AddNumber purchase step likewise swallows the
decode failure and reports success with the zero-value phone number. -/
theorem decode_error_ignored_cex :
    (V1.Send (V1.New (ascii "k") (ascii "t") (ascii "f")) (ascii "c") (ascii "hi")
        (.ok true none)).2 = none
    ∧ AddNumber (.ok false ⟨[⟨[], [], ascii "+15550002222", []⟩], []⟩)
        (.ok true ⟨[], [], [], []⟩) = (.ok [], [Req.search, Req.buy]) := by decide

/-- C9 (amended): the thread sub-fetch GET carries query parameters To
and From exactly when the respective numbers are non-empty, but
url.Values.Encode emits keys in sorted order, so when both are present
the query string is From=<frm>&To=<toN> — From first, not To first. -/
theorem getThreadQuery_shape (c : Client) (frm toN : List Nat) (resp : Fetch Thread) :
    (getThread c frm toN resp).1 = getUrl c getMessages ++ 63 :: getThreadQuery frm toN
    ∧ getThreadQuery frm toN =
        (if frm = [] then (if toN = [] then [] else ascii "To=" ++ queryEscape toN)
         else if toN = [] then ascii "From=" ++ queryEscape frm
         else ascii "From=" ++ queryEscape frm ++ 38 :: (ascii "To=" ++ queryEscape toN)) := by
  refine ⟨rfl, ?_⟩
  cases frm <;> cases toN <;> rfl

/-- C9 counterexample: with From=A and To=B the encoded query string is
"From=A&To=B", not "To=B&From=A" as the claim orders the parameters. -/
theorem getThreadQuery_order_cex :
    getThreadQuery (ascii "A") (ascii "B") = ascii "From=A&To=B"
    ∧ getThreadQuery (ascii "A") (ascii "B") ≠ ascii "To=B&From=A" := by decide

end Twilio
